import Mathlib

/-!
Shallow embedding of src/posts/api.py: a minimal JSON REST API over a
relational store of Post records (id, title, body).  The repository itself
contains only the handler module; the Post model, the database session and
the decorators are external collaborators, so their behaviour is modelled
from the spec where marked.  Each handler below is a pure function from the
request's inputs (and the store state, when the handler can mutate it) to
the response the Python code builds.
-/

namespace PostsApi

/-- JSON values, as parsed from request bodies and serialized into responses. -/
inductive Json where
  | null : Json
  | bool (b : Bool) : Json
  | num (n : Int) : Json
  | str (s : String) : Json
  | arr (elts : List Json) : Json
  | obj (fields : List (String × Json)) : Json
deriving Repr, BEq

/-- Modelled from the spec: the Post entity of `models.Post` (models.py is not
under src/), a record with a store-assigned integer id and text title and body. -/
structure Post where
  id : Nat
  title : String
  body : String
deriving Repr, DecidableEq

/-- Modelled from the spec: `Post.as_dictionary` serializes a post as the JSON
object shape the spec gives: id, title, body. -/
def Post.as_dictionary (p : Post) : Json :=
  .obj [("id", .num (p.id : Int)), ("title", .str p.title), ("body", .str p.body)]

/-- Modelled from the spec: the relational store behind `database.session`.
`posts` holds the persisted records in insertion order; `nextId` is the id the
store assigns to the next created record. -/
structure Store where
  posts : List Post
  nextId : Nat
deriving Repr, DecidableEq

/-- Store states reachable through the API: ids are unique (primary key) and
every assigned id is below the id the store will assign next. -/
def Store.WF (s : Store) : Prop :=
  (s.posts.map Post.id).Nodup ∧ ∀ p ∈ s.posts, p.id < s.nextId

instance (s : Store) : Decidable s.WF := by
  unfold Store.WF; infer_instance

/-- Modelled from the spec: `session.query(models.Post).get(id)` retrieves the
record with primary key `id`, if any. -/
def Store.getById (s : Store) (id : Nat) : Option Post :=
  s.posts.find? (fun p => p.id == id)

/-- leadsOf pat l holds when pat is a leading segment of the character list l. -/
def leadsOf : List Char → List Char → Bool
  | [], _ => true
  | _ :: _, [] => false
  | a :: as, b :: bs => a == b && leadsOf as bs

/-- subOf pat l holds when pat occurs contiguously somewhere inside l. -/
def subOf (pat : List Char) : List Char → Bool
  | [] => pat.isEmpty
  | c :: rest => leadsOf pat (c :: rest) || subOf pat rest

/-- strContains s pat models the SQL LIKE filter that
`models.Post.title.contains(pat)` compiles to: pat occurs in s as a contiguous
(case-sensitive) substring. -/
def strContains (s pat : String) : Bool :=
  subOf pat.data s.data

/-- pyTruthy models Python truthiness of an optional query-string argument:
`request.args.get` returns None when the parameter is absent, and both None and
the empty string are falsy under `if title_like:`. -/
def pyTruthy : Option String → Bool
  | none => false
  | some s => !s.isEmpty

/-- postsGetList is the list of posts the posts_get handler serializes: the
stored posts, filtered by title substring when title_like is truthy, then by
body substring when body_like is truthy, then ordered by ascending id. -/
def postsGetList (s : Store) (title_like body_like : Option String) : List Post :=
  let l₁ := if pyTruthy title_like then
      s.posts.filter (fun p => strContains p.title (title_like.getD "")) else s.posts
  let l₂ := if pyTruthy body_like then
      l₁.filter (fun p => strContains p.body (body_like.getD "")) else l₁
  l₂.mergeSort (fun a b => a.id ≤ b.id)

/-- HTTP response as the handlers build one: status code, JSON body, and the
optional Location header. -/
structure Response where
  status : Nat
  body : Json
  location : Option String := none
deriving Repr, BEq

/-- urlForPostGet models `url_for("post_get", id=id)`: the single-post URL. -/
def urlForPostGet (id : Nat) : String :=
  s!"/api/posts/{id}"

/-- notFoundMsg is the 404 message the handlers build for a missing id. -/
def notFoundMsg (id : Nat) : String :=
  s!"Could not find post with id {id}"

/-- posts_get embeds the GET /api/posts handler: always 200 with the JSON array
of the (filtered, id-ordered) posts. -/
def posts_get (s : Store) (title_like body_like : Option String) : Response :=
  { status := 200, body := .arr ((postsGetList s title_like body_like).map Post.as_dictionary) }

/-- post_get embeds the GET /api/posts/(id) handler: 404 with a message when the
id is missing, otherwise 200 with the serialized post. -/
def post_get (s : Store) (id : Nat) : Response :=
  match s.getById id with
  | none => { status := 404, body := .obj [("message", .str (notFoundMsg id))] }
  | some post => { status := 200, body := post.as_dictionary }

/-- post_delete embeds the DELETE /api/posts/(id) handler; it returns the store
after the request together with the response.  When found, the record fetched by
primary key is deleted and the change committed. -/
def post_delete (s : Store) (id : Nat) : Store × Response :=
  match s.getById id with
  | none => (s, { status := 404, body := .obj [("message", .str (notFoundMsg id))] })
  | some _ =>
      ({ s with posts := s.posts.eraseP (fun p => p.id == id) },
       { status := 200,
         body := .obj [("message", .str s!"Post #{id} successfully deleted")] })

/-- isStr decides the schema check of a property value against type string. -/
def isStr : Json → Bool
  | .str _ => true
  | _ => false

/-- jsonRepr stands in for Python's repr of an instance inside the validator's
type-error message; the validator is an external collaborator, so only the
scalar cases (the ones post_schema can mention) are spelled out. -/
def jsonRepr : Json → String
  | .null => "None"
  | .bool true => "True"
  | .bool false => "False"
  | .num n => toString n
  | .str s => "'" ++ s ++ "'"
  | .arr _ => "<array>"
  | .obj _ => "<object>"

/-- typeErrMsg is the validator's message for a property value whose type is not
string. -/
def typeErrMsg (v : Json) : String :=
  jsonRepr v ++ " is not of type 'string'"

/-- validatePost models `jsonschema.validate(data, post_schema)` where
post_schema declares properties title and body of type string and requires both
keys.  It returns the first validation error's message, or none when the
instance is valid.  Per JSON Schema, `properties` and `required` constrain only
object instances, and property type errors (title's, then body's) are reported
before missing required keys (schema keyword order). -/
def validatePost : Json → Option String
  | .obj fields =>
      match List.lookup "title" fields, List.lookup "body" fields with
      | some tv, some bv =>
          if isStr tv then (if isStr bv then none else some (typeErrMsg bv))
          else some (typeErrMsg tv)
      | some tv, none =>
          if isStr tv then some "'body' is a required property" else some (typeErrMsg tv)
      | none, some bv =>
          if isStr bv then some "'title' is a required property" else some (typeErrMsg bv)
      | none, none => some "'title' is a required property"
  | _ => none

/-- strField reads a string member of a parsed JSON object, as `data["title"]`
does after validation has ensured the member is a string. -/
def strField (fields : List (String × Json)) (key : String) : String :=
  match List.lookup key fields with
  | some (.str s) => s
  | _ => ""

/-- posts_post embeds the POST /api/posts handler: 422 with the validator's
message on invalid input, otherwise the store persists a new record with the
next id and the handler answers 201 with the serialized post and a Location
header for it. -/
def posts_post (s : Store) (data : Json) : Store × Response :=
  match validatePost data with
  | some msg => (s, { status := 422, body := .obj [("message", .str msg)] })
  | none =>
      match data with
      | .obj fields =>
          let post : Post := { id := s.nextId, title := strField fields "title",
                               body := strField fields "body" }
          ({ posts := s.posts ++ [post], nextId := s.nextId + 1 },
           { status := 201, body := post.as_dictionary,
             location := some (urlForPostGet post.id) })
      | _ => (s, { status := 500, body := .null })

/-- edit_post embeds the PUT /api/posts/(id) handler: validation first (422),
then the existence check (404), then both fields are overwritten in place, the
change committed, and the handler answers 200 with the message/content body and
a Location header. -/
def edit_post (s : Store) (id : Nat) (data : Json) : Store × Response :=
  match validatePost data with
  | some msg => (s, { status := 422, body := .obj [("message", .str msg)] })
  | none =>
      match s.getById id with
      | none => (s, { status := 404, body := .obj [("message", .str (notFoundMsg id))] })
      | some _ =>
          match data with
          | .obj fields =>
              let newTitle := strField fields "title"
              let newBody := strField fields "body"
              let posts := s.posts.map (fun p =>
                if p.id == id then { p with title := newTitle, body := newBody } else p)
              let updated : Post := { id := id, title := newTitle, body := newBody }
              ({ s with posts := posts },
               { status := 200,
                 body := .obj [("message", .str s!"Post #{id} successfully updated"),
                               ("content", updated.as_dictionary)],
                 location := some (urlForPostGet id) })
          | _ => (s, { status := 500, body := .null })

/-- samplePost is a concrete record used by the witnesses below. -/
def samplePost : Post :=
  { id := 1, title := "Hello", body := "World" }

/-- samplePost2 is a second concrete record used by the witnesses below. -/
def samplePost2 : Post :=
  { id := 2, title := "Other", body := "Words" }

/-- sampleStore is a concrete two-record store used by the witnesses below. -/
def sampleStore : Store :=
  { posts := [samplePost, samplePost2], nextId := 3 }

/-- emptyStore is the store before any record is created. -/
def emptyStore : Store :=
  { posts := [], nextId := 1 }

theorem isStr_iff (v : Json) : isStr v = true ↔ ∃ s, v = .str s := by
  cases v <;> simp [isStr]

/-- validatePost accepts an object exactly when both title and body are present
with string values. -/
theorem validatePost_obj_eq_none (fields : List (String × Json)) :
    validatePost (.obj fields) = none ↔
      (∃ t, List.lookup "title" fields = some (.str t)) ∧
      (∃ b, List.lookup "body" fields = some (.str b)) := by
  cases ht : List.lookup "title" fields with
  | none =>
      cases hb : List.lookup "body" fields with
      | none => simp [validatePost, ht, hb]
      | some bv => cases bv <;> simp [validatePost, ht, hb, isStr]
  | some tv =>
      cases hb : List.lookup "body" fields with
      | none => cases tv <;> simp [validatePost, ht, hb, isStr]
      | some bv => cases tv <;> cases bv <;> simp [validatePost, ht, hb, isStr]

theorem getById_eq_none (s : Store) (id : Nat) (h : ∀ p ∈ s.posts, p.id ≠ id) :
    s.getById id = none := by
  simp only [Store.getById, List.find?_eq_none, beq_iff_eq]
  exact h

theorem getById_mem_some (s : Store) (id : Nat) (h : ∃ p ∈ s.posts, p.id = id) :
    ∃ p, s.getById id = some p ∧ p.id = id := by
  cases hf : s.getById id with
  | none =>
      exfalso
      obtain ⟨p, hp, hid⟩ := h
      have := (List.find?_eq_none.mp hf) p hp
      simp [hid] at this
  | some p =>
      exact ⟨p, rfl, by simpa using List.find?_some hf⟩

/-- notFoundMsg spelled out: the 404 message is the fixed text followed by the
decimal rendering of the id. -/
theorem notFoundMsg_eq (id : Nat) :
    notFoundMsg id = "Could not find post with id " ++ toString id := by
  show toString "Could not find post with id " ++ toString id ++ toString "" = _
  rw [show (toString "" : String) = "" from rfl,
      show (toString "Could not find post with id " : String) =
        "Could not find post with id " from rfl]
  exact String.append_empty _

/-- C7: for an id not present in the store, GET /api/posts/(id) and
DELETE /api/posts/(id) both answer 404 with the JSON body carrying the message
that the post with that id could not be found — a message containing the id;
the delete leaves the store as it was. -/
theorem C7_missing_id_404 (s : Store) (id : Nat)
    (h : ∀ p ∈ s.posts, p.id ≠ id) :
    post_get s id = { status := 404, body := .obj [("message", .str (notFoundMsg id))] } ∧
    post_delete s id = (s, { status := 404, body := .obj [("message", .str (notFoundMsg id))] }) ∧
    notFoundMsg id = "Could not find post with id " ++ toString id := by
  have hn := getById_eq_none s id h
  refine ⟨?_, ?_, ?_⟩
  · simp [post_get, hn]
  · simp [post_delete, hn]
  · exact notFoundMsg_eq id

/-- C7 witness: id 5 is absent from the sample store. -/
theorem C7_missing_id_404_witness :
    post_get sampleStore 5 = { status := 404, body := .obj [("message", .str (notFoundMsg 5))] } ∧
    post_delete sampleStore 5 =
      (sampleStore, { status := 404, body := .obj [("message", .str (notFoundMsg 5))] }) ∧
    notFoundMsg 5 = "Could not find post with id " ++ toString 5 :=
  C7_missing_id_404 sampleStore 5 (by decide)

/-- C10: a filter parameter supplied as the empty string is falsy in Python, so
the corresponding filter is skipped exactly as when the parameter is absent. -/
theorem C10_empty_filter_ignored (s : Store) (tl bl : Option String) :
    posts_get s (some "") bl = posts_get s none bl ∧
    posts_get s tl (some "") = posts_get s tl none := by
  constructor <;> rfl

/-- C4 counterexample: a POST whose title and body are both the empty string
passes schema validation and persists a record with empty title and body, so
the schema does not require non-emptiness and such a request is not rejected. -/
theorem C4_counterexample :
    validatePost (.obj [("title", .str ""), ("body", .str "")]) = none ∧
    posts_post emptyStore (.obj [("title", .str ""), ("body", .str "")]) =
      ({ posts := [{ id := 1, title := "", body := "" }], nextId := 2 },
       { status := 201,
         body := Post.as_dictionary { id := 1, title := "", body := "" },
         location := some (urlForPostGet 1) }) := by
  constructor <;> rfl

/-- C4 amended: the schema validation applied by POST and PUT requires title and
body to be present and of string type — an object missing either field or
holding a non-string value there is rejected — but it does not require
non-emptiness: empty strings are accepted, so every persisted Post has string,
possibly empty, title and body. -/
theorem C4_amended_presence_and_type : ∀ fields : List (String × Json),
    validatePost (.obj fields) = none ↔
      (∃ t, List.lookup "title" fields = some (.str t)) ∧
      (∃ b, List.lookup "body" fields = some (.str b)) :=
  validatePost_obj_eq_none

/-- C6: a POST whose object body misses title or body, or holds a non-string
value at either, answers 422 carrying the validator's message and leaves the
store unchanged — no record is created. -/
theorem C6_invalid_post_422 (s : Store) (fields : List (String × Json))
    (h : List.lookup "title" fields = none ∨ List.lookup "body" fields = none ∨
         (∃ v, List.lookup "title" fields = some v ∧ isStr v = false) ∨
         (∃ v, List.lookup "body" fields = some v ∧ isStr v = false)) :
    ∃ msg, validatePost (.obj fields) = some msg ∧
      posts_post s (.obj fields) =
        (s, { status := 422, body := .obj [("message", .str msg)] }) := by
  have hv : validatePost (.obj fields) ≠ none := by
    rw [Ne, validatePost_obj_eq_none]
    rintro ⟨⟨t, hts⟩, ⟨b, hbs⟩⟩
    rcases h with h | h | ⟨v, hv, hs⟩ | ⟨v, hv, hs⟩
    · rw [h] at hts; exact Option.noConfusion hts
    · rw [h] at hbs; exact Option.noConfusion hbs
    · rw [hts] at hv; cases hv; simp [isStr] at hs
    · rw [hbs] at hv; cases hv; simp [isStr] at hs
  obtain ⟨msg, hmsg⟩ := Option.ne_none_iff_exists'.mp hv
  exact ⟨msg, hmsg, by simp [posts_post, hmsg]⟩

/-- C6 witness: a body holding only a title misses the required body field. -/
theorem C6_invalid_post_422_witness :
    ∃ msg, validatePost (.obj [("title", .str "x")]) = some msg ∧
      posts_post sampleStore (.obj [("title", .str "x")]) =
        (sampleStore, { status := 422, body := .obj [("message", .str msg)] }) :=
  C6_invalid_post_422 sampleStore [("title", .str "x")] (Or.inr (Or.inl rfl))

/-- C5: PUT validates before the existence check: when the id is absent from
the store, an invalid body still draws 422 (not 404), and the 404 arrives
exactly when the body is valid. -/
theorem C5_put_validates_before_existence (s : Store) (id : Nat) (data : Json)
    (hmiss : ∀ p ∈ s.posts, p.id ≠ id) :
    (∀ msg, validatePost data = some msg →
       edit_post s id data =
         (s, { status := 422, body := .obj [("message", .str msg)] })) ∧
    (validatePost data = none →
       edit_post s id data =
         (s, { status := 404, body := .obj [("message", .str (notFoundMsg id))] })) := by
  have hn := getById_eq_none s id hmiss
  constructor
  · intro msg hmsg
    simp [edit_post, hmsg]
  · intro hv
    simp [edit_post, hv, hn]

/-- C5 witness: id 9 is absent from the sample store; the empty object is
invalid and draws 422, a valid body draws the 404. -/
theorem C5_put_validates_before_existence_witness :
    edit_post sampleStore 9 (.obj []) =
      (sampleStore,
       { status := 422,
         body := .obj [("message", .str "'title' is a required property")] }) ∧
    edit_post sampleStore 9 (.obj [("title", .str "T"), ("body", .str "B")]) =
      (sampleStore,
       { status := 404, body := .obj [("message", .str (notFoundMsg 9))] }) :=
  ⟨(C5_put_validates_before_existence sampleStore 9 (.obj []) (by decide)).1 _ rfl,
   (C5_put_validates_before_existence sampleStore 9
      (.obj [("title", .str "T"), ("body", .str "B")]) (by decide)).2 rfl⟩

/-- C9: every error response leaves the store unchanged: a 404 from DELETE or
PUT and a 422 from POST or PUT hand back exactly the incoming store.  The GET
handlers posts_get and post_get return no store component at all, embedding
handlers that perform no add, delete, field assignment or commit on any path. -/
theorem C9_error_responses_leave_store (s : Store) (id : Nat) (data : Json) :
    ((post_delete s id).2.status = 404 → (post_delete s id).1 = s) ∧
    ((edit_post s id data).2.status = 404 → (edit_post s id data).1 = s) ∧
    ((edit_post s id data).2.status = 422 → (edit_post s id data).1 = s) ∧
    ((posts_post s data).2.status = 422 → (posts_post s data).1 = s) := by
  refine ⟨?_, ?_, ?_, ?_⟩
  · intro hc
    cases h : s.getById id with
    | none => simp [post_delete, h]
    | some p => simp [post_delete, h] at hc
  · intro hc
    cases hv : validatePost data with
    | some msg => simp [edit_post, hv] at hc
    | none =>
        cases h : s.getById id with
        | none => simp [edit_post, hv, h]
        | some p => cases data <;> simp [edit_post, hv, h] at hc
  · intro hc
    cases hv : validatePost data with
    | some msg => simp [edit_post, hv]
    | none =>
        cases h : s.getById id with
        | none => simp [edit_post, hv, h] at hc
        | some p => cases data <;> simp [edit_post, hv, h] at hc
  · intro hc
    cases hv : validatePost data with
    | some msg => simp [posts_post, hv]
    | none => cases data <;> simp [posts_post, hv] at hc

/-- C9 witness: a missing-id DELETE and PUT, an invalid-body PUT and POST, each
hand back the sample store unchanged. -/
theorem C9_error_responses_leave_store_witness :
    (post_delete sampleStore 9).1 = sampleStore ∧
    (edit_post sampleStore 9 (.obj [("title", .str "T"), ("body", .str "B")])).1
      = sampleStore ∧
    (edit_post sampleStore 1 (.obj [])).1 = sampleStore ∧
    (posts_post sampleStore (.obj [])).1 = sampleStore :=
  ⟨(C9_error_responses_leave_store sampleStore 9 .null).1 rfl,
   (C9_error_responses_leave_store sampleStore 9
      (.obj [("title", .str "T"), ("body", .str "B")])).2.1 rfl,
   (C9_error_responses_leave_store sampleStore 1 (.obj [])).2.2.1 rfl,
   (C9_error_responses_leave_store sampleStore 0 (.obj [])).2.2.2 rfl⟩

/-- C1: a POST with string title and body persists a new record carrying the
store-assigned id — strictly new: no existing record has it — answers 201 with
the serialized post and a Location header holding the single-post URL for that
id, and a GET of that id on the resulting store answers 200 with the same title
and body that were posted. -/
theorem C1_post_creates (s : Store) (fields : List (String × Json)) (t b : String)
    (ht : List.lookup "title" fields = some (.str t))
    (hb : List.lookup "body" fields = some (.str b))
    (hw : ∀ p ∈ s.posts, p.id < s.nextId) :
    (posts_post s (.obj fields)).1.posts
        = s.posts ++ [{ id := s.nextId, title := t, body := b }] ∧
    (∀ p ∈ s.posts, p.id ≠ s.nextId) ∧
    (posts_post s (.obj fields)).2 =
      { status := 201,
        body := Post.as_dictionary { id := s.nextId, title := t, body := b },
        location := some (urlForPostGet s.nextId) } ∧
    post_get (posts_post s (.obj fields)).1 s.nextId =
      { status := 200,
        body := Post.as_dictionary { id := s.nextId, title := t, body := b } } := by
  have hv : validatePost (.obj fields) = none :=
    (validatePost_obj_eq_none fields).mpr ⟨⟨t, ht⟩, ⟨b, hb⟩⟩
  have hsf1 : strField fields "title" = t := by simp [strField, ht]
  have hsf2 : strField fields "body" = b := by simp [strField, hb]
  have hfresh : ∀ p ∈ s.posts, p.id ≠ s.nextId := fun p hp => Nat.ne_of_lt (hw p hp)
  refine ⟨?_, hfresh, ?_, ?_⟩
  · simp [posts_post, hv, hsf1, hsf2]
  · simp [posts_post, hv, hsf1, hsf2]
  · have h1 : (posts_post s (.obj fields)).1 =
        { posts := s.posts ++ [{ id := s.nextId, title := t, body := b }],
          nextId := s.nextId + 1 } := by
      simp [posts_post, hv, hsf1, hsf2]
    have hfind : (s.posts ++ [({ id := s.nextId, title := t, body := b } : Post)]).find?
        (fun p => p.id == s.nextId) = some { id := s.nextId, title := t, body := b } := by
      rw [List.find?_append]
      have hnone : s.posts.find? (fun p => p.id == s.nextId) = none := by
        rw [List.find?_eq_none]
        intro p hp
        simpa using hfresh p hp
      simp [hnone]
    rw [h1]
    simp [post_get, Store.getById, hfind]

/-- C1 witness: posting Hello/World to the sample store creates id 3. -/
theorem C1_post_creates_witness :
    (posts_post sampleStore (.obj [("title", .str "New"), ("body", .str "Text")])).1.posts
        = sampleStore.posts ++ [{ id := 3, title := "New", body := "Text" }] ∧
    (∀ p ∈ sampleStore.posts, p.id ≠ 3) ∧
    (posts_post sampleStore (.obj [("title", .str "New"), ("body", .str "Text")])).2 =
      { status := 201,
        body := Post.as_dictionary { id := 3, title := "New", body := "Text" },
        location := some (urlForPostGet 3) } ∧
    post_get (posts_post sampleStore (.obj [("title", .str "New"), ("body", .str "Text")])).1 3 =
      { status := 200,
        body := Post.as_dictionary { id := 3, title := "New", body := "Text" } } :=
  C1_post_creates sampleStore [("title", .str "New"), ("body", .str "Text")]
    "New" "Text" rfl rfl (by decide)

/-- C2: a PUT on an existing id with string title and body overwrites exactly
those two fields, answers 200 with the message/content body — a shape different
from creation — plus a Location header, and a subsequent GET of the same id
returns the new values. -/
theorem C2_put_replaces (s : Store) (id : Nat) (fields : List (String × Json))
    (t b : String)
    (ht : List.lookup "title" fields = some (.str t))
    (hb : List.lookup "body" fields = some (.str b))
    (hex : ∃ p ∈ s.posts, p.id = id) :
    (edit_post s id (.obj fields)).2 =
      { status := 200,
        body := .obj [("message", .str s!"Post #{id} successfully updated"),
                      ("content", Post.as_dictionary { id := id, title := t, body := b })],
        location := some (urlForPostGet id) } ∧
    (edit_post s id (.obj fields)).1.posts =
      s.posts.map (fun p => if p.id == id then { p with title := t, body := b } else p) ∧
    post_get (edit_post s id (.obj fields)).1 id =
      { status := 200,
        body := Post.as_dictionary { id := id, title := t, body := b } } := by
  have hv : validatePost (.obj fields) = none :=
    (validatePost_obj_eq_none fields).mpr ⟨⟨t, ht⟩, ⟨b, hb⟩⟩
  have hsf1 : strField fields "title" = t := by simp [strField, ht]
  have hsf2 : strField fields "body" = b := by simp [strField, hb]
  obtain ⟨p0, hg, hp0⟩ := getById_mem_some s id hex
  have h1 : (edit_post s id (.obj fields)).1.posts =
      s.posts.map (fun p => if p.id == id then { p with title := t, body := b } else p) := by
    simp [edit_post, hv, hg, hsf1, hsf2]
  refine ⟨?_, h1, ?_⟩
  · simp [edit_post, hv, hg, hsf1, hsf2]
  · have hcomp : (fun p : Post => p.id == id) ∘
        (fun p : Post => if p.id == id then { p with title := t, body := b } else p) =
        (fun p : Post => p.id == id) := by
      funext p
      by_cases h : p.id = id <;> simp [h]
    have hg' : s.posts.find? (fun p => p.id == id) = some p0 := hg
    have hfind : (edit_post s id (.obj fields)).1.getById id =
        some { id := id, title := t, body := b } := by
      simp only [Store.getById, h1, List.find?_map, hcomp, hg', Option.map_some]
      simp [hp0]
    simp [post_get, hfind]

/-- C2 witness: updating post 1 of the sample store to T/B and reading it back. -/
theorem C2_put_replaces_witness :
    (edit_post sampleStore 1 (.obj [("title", .str "T"), ("body", .str "B")])).2 =
      { status := 200,
        body := .obj [("message", .str s!"Post #{(1 : Nat)} successfully updated"),
                      ("content", Post.as_dictionary { id := 1, title := "T", body := "B" })],
        location := some (urlForPostGet 1) } ∧
    (edit_post sampleStore 1 (.obj [("title", .str "T"), ("body", .str "B")])).1.posts =
      sampleStore.posts.map
        (fun p => if p.id == 1 then { p with title := "T", body := "B" } else p) ∧
    post_get (edit_post sampleStore 1 (.obj [("title", .str "T"), ("body", .str "B")])).1 1 =
      { status := 200,
        body := Post.as_dictionary { id := 1, title := "T", body := "B" } } :=
  C2_put_replaces sampleStore 1 [("title", .str "T"), ("body", .str "B")] "T" "B"
    rfl rfl ⟨samplePost, by decide, rfl⟩

/-- Deleting by primary key from a table with unique ids removes exactly the
record carrying that id: membership in the erased list is membership in the
original minus the deleted id. -/
theorem mem_eraseP_unique_ids (l : List Post) (id : Nat)
    (hnd : (l.map Post.id).Nodup) (hex : ∃ p ∈ l, p.id = id) (q : Post) :
    q ∈ l.eraseP (fun p => p.id == id) ↔ q ∈ l ∧ q.id ≠ id := by
  obtain ⟨a, ha, hida⟩ := hex
  obtain ⟨a', l₁, l₂, hl₁, hpa', hsplit, herase⟩ :=
    List.exists_of_eraseP (p := fun p => p.id == id) ha
      (show (a.id == id) = true by simp [hida])
  have hida' : a'.id = id := eq_of_beq hpa'
  have hnotmem : a'.id ∉ l₁.map Post.id ∧ a'.id ∉ l₂.map Post.id := by
    rw [hsplit] at hnd
    simp only [List.map_append, List.map_cons, List.nodup_append,
      List.nodup_cons, List.disjoint_cons_right] at hnd
    exact ⟨hnd.2.2.1, hnd.2.1.1⟩
  rw [herase, hsplit]
  constructor
  · rintro hq
    rcases List.mem_append.mp hq with hq1 | hq2
    · refine ⟨List.mem_append.mpr (Or.inl hq1), ?_⟩
      intro hqid
      apply hnotmem.1
      rw [hida', ← hqid]
      exact List.mem_map_of_mem Post.id hq1
    · refine ⟨List.mem_append.mpr (Or.inr (List.mem_cons_of_mem a' hq2)), ?_⟩
      intro hqid
      apply hnotmem.2
      rw [hida', ← hqid]
      exact List.mem_map_of_mem Post.id hq2
  · rintro ⟨hq, hqid⟩
    rcases List.mem_append.mp hq with hq1 | hq2
    · exact List.mem_append.mpr (Or.inl hq1)
    · rcases List.mem_cons.mp hq2 with rfl | hq2'
      · exact absurd hida' hqid
      · exact List.mem_append.mpr (Or.inr hq2')

/-- C8: a DELETE on an existing id answers 200 with the deletion message, the
resulting store holds exactly the other records, and a subsequent GET of the
same id answers 404. -/
theorem C8_delete_removes (s : Store) (id : Nat)
    (hnd : (s.posts.map Post.id).Nodup)
    (hex : ∃ p ∈ s.posts, p.id = id) :
    (post_delete s id).2 =
      { status := 200,
        body := .obj [("message", .str s!"Post #{id} successfully deleted")] } ∧
    (∀ q, q ∈ (post_delete s id).1.posts ↔ q ∈ s.posts ∧ q.id ≠ id) ∧
    post_get (post_delete s id).1 id =
      { status := 404, body := .obj [("message", .str (notFoundMsg id))] } := by
  obtain ⟨p0, hg, hp0⟩ := getById_mem_some s id hex
  have h1 : (post_delete s id).1.posts = s.posts.eraseP (fun p => p.id == id) := by
    simp [post_delete, hg]
  have hmem := mem_eraseP_unique_ids s.posts id hnd hex
  refine ⟨?_, ?_, ?_⟩
  · simp [post_delete, hg]
  · intro q
    rw [h1]
    exact hmem q
  · have hn : (post_delete s id).1.getById id = none := by
      simp only [Store.getById, h1, List.find?_eq_none, beq_iff_eq]
      intro p hp
      exact ((hmem p).mp hp).2
    simp [post_get, hn]

/-- C8 witness: deleting post 1 of the sample store and reading it back. -/
theorem C8_delete_removes_witness :
    (post_delete sampleStore 1).2 =
      { status := 200,
        body := .obj [("message", .str s!"Post #{(1 : Nat)} successfully deleted")] } ∧
    (∀ q, q ∈ (post_delete sampleStore 1).1.posts ↔ q ∈ sampleStore.posts ∧ q.id ≠ 1) ∧
    post_get (post_delete sampleStore 1).1 1 =
      { status := 404, body := .obj [("message", .str (notFoundMsg 1))] } :=
  C8_delete_removes sampleStore 1 (by decide) ⟨samplePost, by decide, rfl⟩

/-- leadsOf is exactly the leading-segment relation. -/
theorem leadsOf_iff (pat l : List Char) :
    leadsOf pat l = true ↔ ∃ t, l = pat ++ t := by
  induction pat generalizing l with
  | nil => simp [leadsOf]
  | cons a as ih =>
      cases l with
      | nil => simp [leadsOf]
      | cons b bs =>
          simp only [leadsOf, Bool.and_eq_true, beq_iff_eq, ih, List.cons_append,
            List.cons.injEq]
          constructor
          · rintro ⟨h1, t, h2⟩
            exact ⟨t, h1.symm, h2⟩
          · rintro ⟨t, h1, h2⟩
            exact ⟨h1.symm, t, h2⟩

/-- subOf is exactly the contiguous-occurrence relation. -/
theorem subOf_iff (pat l : List Char) :
    subOf pat l = true ↔ ∃ l₁ l₂, l = l₁ ++ pat ++ l₂ := by
  induction l with
  | nil =>
      simp only [subOf, List.isEmpty_iff]
      constructor
      · rintro rfl
        exact ⟨[], [], rfl⟩
      · rintro ⟨l₁, l₂, h⟩
        rcases List.append_eq_nil.mp h.symm with ⟨h1, h2⟩
        exact (List.append_eq_nil.mp h1).2
  | cons c rest ih =>
      simp only [subOf, Bool.or_eq_true, leadsOf_iff, ih]
      constructor
      · rintro (⟨t, ht⟩ | ⟨l₁, l₂, h⟩)
        · exact ⟨[], t, by simpa using ht⟩
        · exact ⟨c :: l₁, l₂, by simp [h]⟩
      · rintro ⟨l₁, l₂, h⟩
        cases l₁ with
        | nil => exact Or.inl ⟨l₂, by simpa using h⟩
        | cons x xs =>
            simp only [List.cons_append, List.cons.injEq] at h
            obtain ⟨rfl, h2⟩ := h
            exact Or.inr ⟨xs, l₂, h2⟩

/-- strContains holds exactly when the pattern's characters occur contiguously
inside the string's characters. -/
theorem strContains_iff (s pat : String) :
    strContains s pat = true ↔ ∃ l r, s.data = l ++ pat.data ++ r :=
  subOf_iff pat.data s.data

/-- mergeSort by id is sorted by ascending id. -/
theorem pairwise_mergeSort_id (l : List Post) :
    (l.mergeSort (fun a b => a.id ≤ b.id)).Pairwise (fun a b => a.id ≤ b.id) := by
  have h := @List.sorted_mergeSort Post (fun a b => decide (a.id ≤ b.id))
    (fun a b c hab hbc => by
      simp only [decide_eq_true_eq] at hab hbc ⊢
      omega)
    (fun a b => by
      rcases Nat.le_total a.id b.id with h | h <;> simp [h]) l
  exact h.imp (fun hab => by simpa using hab)

/-- C3: the collection GET always answers 200 with the JSON array of the
selected posts in ascending-id order; with title_like given it selects exactly
the posts whose title contains the pattern as a contiguous substring, and with
both filters given exactly the intersection of the two substring conditions. -/
theorem C3_collection_filters (s : Store) (t u : String)
    (ht : t ≠ "") (hu : u ≠ "") :
    (∀ tl bl, posts_get s tl bl =
        { status := 200,
          body := .arr ((postsGetList s tl bl).map Post.as_dictionary) } ∧
      (postsGetList s tl bl).Pairwise (fun a b => a.id ≤ b.id)) ∧
    (∀ p, p ∈ postsGetList s (some t) none ↔
        p ∈ s.posts ∧ strContains p.title t = true) ∧
    (∀ p, p ∈ postsGetList s (some t) (some u) ↔
        p ∈ s.posts ∧ strContains p.title t = true ∧ strContains p.body u = true) ∧
    (∀ w pat : String, strContains w pat = true ↔
        ∃ l r, w.data = l ++ pat.data ++ r) := by
  have hte : t.isEmpty = false := by
    rcases Bool.eq_false_or_eq_true t.isEmpty with h | h
    · exact absurd ((String.isEmpty_iff t).mp h) ht
    · exact h
  have hue : u.isEmpty = false := by
    rcases Bool.eq_false_or_eq_true u.isEmpty with h | h
    · exact absurd ((String.isEmpty_iff u).mp h) hu
    · exact h
  refine ⟨?_, ?_, ?_, ?_⟩
  · intro tl bl
    exact ⟨rfl, pairwise_mergeSort_id _⟩
  · intro p
    simp [postsGetList, pyTruthy, hte, List.mem_mergeSort, List.mem_filter]
  · intro p
    simp [postsGetList, pyTruthy, hte, hue, List.mem_mergeSort, List.mem_filter,
      and_assoc]
    exact fun _ => and_comm
  · intro w pat
    exact strContains_iff w pat

/-- C3 witness: filtering the sample store by a title substring, evaluated at a
concrete post and concrete filters. -/
theorem C3_collection_filters_witness :
    (samplePost ∈ postsGetList sampleStore (some "ell") none ↔
      samplePost ∈ sampleStore.posts ∧ strContains samplePost.title "ell" = true) ∧
    posts_get sampleStore (some "ell") none =
      { status := 200,
        body := .arr ((postsGetList sampleStore (some "ell") none).map
          Post.as_dictionary) } :=
  ⟨(C3_collection_filters sampleStore "ell" "or" (by decide) (by decide)).2.1 samplePost,
   ((C3_collection_filters sampleStore "ell" "or" (by decide) (by decide)).1
      (some "ell") none).1⟩

end PostsApi
